import Mathlib

/-!
Verification development for the oca-utils species-tag parsing and
export/copy pipeline (src/oca_utils).  The functions below are shallow
embeddings of the Python sources: tag classification (`noms`, `qte`,
`details`, commune extraction), the quantity/detail resolution loops shared
by `exporter.py` and `copier.py`, coordinate degradation (`_dégrader`),
destination-name computation and the per-run state threading of the
exporter and copier file loops.  Python floats are modelled as rationals,
machine integers as `Nat`, and the regular expressions of
`constantes.py` as explicit leftmost/greedy backtracking searches over
character lists.
-/

namespace OcaUtils

/-- Accented Latin letters treated as word characters, covering the French
tag vocabulary of the repository (model of the Unicode letters matched by
Python's `\w` that occur in the tags). -/
def lettresAccentuees : List Char :=
  ['à', 'â', 'ä', 'ç', 'é', 'è', 'ê', 'ë', 'î', 'ï', 'ô', 'ö', 'ù', 'û',
   'ü', 'ÿ', 'æ', 'œ', 'À', 'Â', 'Ä', 'Ç', 'É', 'È', 'Ê', 'Ë', 'Î', 'Ï',
   'Ô', 'Ö', 'Ù', 'Û', 'Ü', 'Æ', 'Œ']

/-- Model of Python's `\w` character class (ASCII alphanumerics, underscore
and the accented letters of the tag vocabulary). -/
def estMot (c : Char) : Bool :=
  c.isAlphanum || c == '_' || lettresAccentuees.contains c

/-- Model of Python's `\s` character class. -/
def estEspace (c : Char) : Bool :=
  c == ' ' || c == '\t' || c == '\n' || c == '\r'

/-- Character class of ESPECE_PAT, the alternation `(\w|\s|')`. -/
def estClasseEspece (c : Char) : Bool :=
  estMot c || estEspace c || c == Char.ofNat 39

/-- Character class of NB_PAT and DETAILS_PAT groups, the alternation
`(\w|\s)`. -/
def estClasseNb (c : Char) : Bool :=
  estMot c || estEspace c

/-- Backtracking target of ESPECE_PAT at one start position: the predicate
satisfied by a repetition count k of the leading group such that the
literal space and opening brace follow. -/
def espCible (l : List Char) (k : Nat) : Bool :=
  decide (0 < k) && (l.get? k == some ' ') && (l.get? (k + 1) == some (Char.ofNat 123))

/-- Greedy backtracking of the group `(\w|\s|')+`: the largest repetition
count not exceeding the maximal class run that lets the rest of
ESPECE_PAT match. -/
def espChoixK (l : List Char) (m : Nat) : Option Nat :=
  (List.range (m + 1)).reverse.find? (espCible l)

/-- Model of `re.search(ESPECE_PAT, ...)`: leftmost start position, greedy
group, returning group 0 of the match. -/
def espRecherche : List Char → Option (List Char)
  | [] => none
  | c :: reste =>
    if estClasseEspece c then
      match espChoixK (c :: reste) ((c :: reste).takeWhile estClasseEspece).length with
      | some k => some ((c :: reste).take (k + 2))
      | none => espRecherche reste
    else espRecherche reste

/-- Backtracking target of NB_PAT `((\w|\s)+)_(\d+)` at one start
position. -/
def nbCible (l : List Char) (k : Nat) : Bool :=
  decide (0 < k) && (l.get? k == some '_') && (l.get? (k + 1)).any Char.isDigit

/-- Greedy backtracking of the first group of NB_PAT. -/
def nbChoixK (l : List Char) (m : Nat) : Option Nat :=
  (List.range (m + 1)).reverse.find? (nbCible l)

/-- Model of `re.search(NB_PAT, ...)`: returns (group 1, group 3) of the
leftmost match. -/
def nbRecherche : List Char → Option (List Char × List Char)
  | [] => none
  | c :: reste =>
    if estClasseNb c then
      match nbChoixK (c :: reste) ((c :: reste).takeWhile estClasseNb).length with
      | some k => some ((c :: reste).take k, ((c :: reste).drop (k + 1)).takeWhile Char.isDigit)
      | none => nbRecherche reste
    else nbRecherche reste

/-- Backtracking target of DETAILS_PAT `((\w|\s)+)_((\w|\s)+)` at one start
position. -/
def detCible (l : List Char) (k : Nat) : Bool :=
  decide (0 < k) && (l.get? k == some '_') && (l.get? (k + 1)).any estClasseNb

/-- Greedy backtracking of the first group of DETAILS_PAT. -/
def detChoixK (l : List Char) (m : Nat) : Option Nat :=
  (List.range (m + 1)).reverse.find? (detCible l)

/-- Model of `re.search(DETAILS_PAT, ...)`: returns (group 1, group 3) of
the leftmost match. -/
def detRecherche : List Char → Option (List Char × List Char)
  | [] => none
  | c :: reste =>
    if estClasseNb c then
      match detChoixK (c :: reste) ((c :: reste).takeWhile estClasseNb).length with
      | some k => some ((c :: reste).take k, ((c :: reste).drop (k + 1)).takeWhile estClasseNb)
      | none => detRecherche reste
    else detRecherche reste

/-- Structural test that a string begins with a literal (model of an
anchored `re.match` against a pattern of the form `lit.*`). -/
def commenceParAux : List Char → List Char → Bool
  | [], _ => true
  | _ :: _, [] => false
  | p :: ps, c :: cs => p == c && commenceParAux ps cs

/-- Model of `re.match` of an anchored literal head against a tag. -/
def commencePar (pre t : String) : Bool :=
  commenceParAux pre.toList t.toList

/-- Model of `t.split("|")[-1]`: the characters after the last separator
(the whole string when no separator occurs). -/
def dernierSegment (t : String) : String :=
  String.mk ((t.toList.reverse.takeWhile (fun c => c != '|')).reverse)

/-- Species name extracted from one Nature tag (utilitaires.noms, body of
the loop): search ESPECE_PAT in the last segment, strip the final two
characters of the match, placeholder "Inconnu" on no match. -/
def especeDe (t : String) : String :=
  match espRecherche (dernierSegment t).toList with
  | some m => String.mk (m.take (m.length - 2))
  | none => "Inconnu"

/-- utilitaires.noms: one entry per tag matching NATURE_PAT (an anchored
match of "Nature.*", i.e. a "Nature" start), in tag order. -/
def noms : List String → List String
  | [] => []
  | t :: ts => if commencePar "Nature" t then especeDe t :: noms ts else noms ts

/-- Quantity entry extracted from one Quantité tag (utilitaires.qte, body
of the loop): a single-entry mapping modelled as a key/value pair. -/
def nbDe (t : String) : String × String :=
  match nbRecherche (dernierSegment t).toList with
  | some g => (String.mk g.1, String.mk g.2)
  | none => ("Inconnu", "1")

/-- utilitaires.qte: one single-entry mapping per tag matching QTE_PAT
(a "Quantité" start), in tag order. -/
def qte : List String → List (String × String)
  | [] => []
  | t :: ts => if commencePar "Quantité" t then nbDe t :: qte ts else qte ts

/-- Detail entry extracted from one Détails tag (utilitaires.details, body
of the loop). -/
def detailDe (t : String) : String × String :=
  match detRecherche (dernierSegment t).toList with
  | some g => (String.mk g.1, String.mk g.2)
  | none => ("Inconnu", "")

/-- utilitaires.details: one single-entry mapping per tag matching DET_PAT
(a "Détails" start), in tag order. -/
def details : List String → List (String × String)
  | [] => []
  | t :: ts => if commencePar "Détails" t then detailDe t :: details ts else details ts

/-- utilitaires.corrige: exact-match lookup in the one-entry correction
table, identity otherwise. -/
def corrige (sp : String) : String :=
  if sp = "Canidés" then "CANIDE SP" else sp

/-- constantes.NON_FAUNE: the human-activity exclusion set (the
commented-out members of the Python literal are absent, as in the
source). -/
def NON_FAUNE : List String :=
  ["Agriculteur", "Chasseur", "Cueilleur", "Cycliste", "Pêcheur",
   "Randonneur", "Traileur"]

/-- Model of Python `int(...)` on the decimal digit strings produced by
NB_PAT group 3 (and the default "1"). -/
def entierDe (v : String) : Nat :=
  v.toList.foldl (fun a c => 10 * a + (c.toNat - 48)) 0

/-- Quantity resolution loop shared by exporter.py and copier.py:
`qt = 1; for n in nb: if s in n: qt = int(n[s]) else: qt = max(1, qt)`,
on single-entry mappings modelled as pairs. -/
def resoudreQte (s : String) (nb : List (String × String)) : Nat :=
  nb.foldl (fun qt n => if n.1 = s then entierDe n.2 else max 1 qt) 1

/-- Detail resolution loop shared by exporter.py and copier.py:
`de = ""; for d in det: if s in d: de = d[s]`. -/
def resoudreDet (s : String) (det : List (String × String)) : String :=
  det.foldl (fun de d => if d.1 = s then d.2 else de) ""

/-- Literal hierarchy path that COMMUNE_PAT anchors on; the final capture
group is everything that follows it. -/
def racineCommune : String :=
  "Continents et pays|Europe|France \x7bFrance\x7d \x7bFR\x7d \x7bFRA\x7d|Auvergne-Rhône-Alpes|Isère|"

/-- Model of `COMMUNE_PAT.match(t)`: if the tag starts with the literal
path, group 1 is the remainder of the line (the `(.*)` capture stops at a
newline). -/
def capteCommune (t : String) : Option String :=
  if commencePar racineCommune t then
    some (String.mk ((t.toList.drop racineCommune.length).takeWhile (fun c => c ≠ '\n')))
  else none

/-- exporter.py `_commune`: default "Inconnu", first matching tag wins (the
loop breaks at the first match). -/
def commune : List String → String
  | [] => "Inconnu"
  | t :: ts =>
    match capteCommune t with
    | some c => c
    | none => commune ts

/-- Modelled from the spec: the commune resolution the spec and claim C5
describe, a scan of the whole tag list in which each matching tag
overwrites the running commune (last match wins) with default "Inconnu".
Stated for comparison with the code's `commune`. -/
def communeSelonSpec (tags : List String) : String :=
  (tags.foldl
    (fun com t => match capteCommune t with | some c => some c | none => com)
    none).getD "Inconnu"

/-- exporter.py `_dégrader` on the coordinate pair (Python floats modelled
as rationals; the error log of the unknown-grain branch is an effect only
and is dropped). -/
def degrader (x y : ℚ) (grain : String) : ℚ × ℚ :=
  if grain = "M1" then
    (((⌊x / 1000⌋ : ℤ) : ℚ) * 1000 + 500, ((⌊y / 1000⌋ : ℤ) : ℚ) * 1000 + 500)
  else if grain = "M2" then
    (((⌊x / 2000⌋ : ℤ) : ℚ) * 2000 + 1000, ((⌊y / 2000⌋ : ℤ) : ℚ) * 2000 + 1000)
  else if grain = "M5" then
    (((⌊x / 5000⌋ : ℤ) : ℚ) * 5000 + 2500, ((⌊y / 5000⌋ : ℤ) : ℚ) * 5000 + 2500)
  else if grain = "M10" then
    (((⌊x / 10000⌋ : ℤ) : ℚ) * 10000 + 5000, ((⌊y / 10000⌋ : ℤ) : ℚ) * 10000 + 5000)
  else
    (x, y)

/-- One row appended to the observations list by exporter.py (the
point geometry is the reprojection collaborator applied to the stored
latitude/longitude, so the row is modelled by the fields the core
computes: the raw coordinates and the tag-derived values). -/
structure Observation where
  commune : String
  date : String
  espece : String
  quantite : Nat
  detailsTxt : String
  latitude : ℚ
  longitude : ℚ
  altitude : ℚ
deriving DecidableEq, Repr

/-- Observation rows emitted by exporter.py for one file given the current
loop state: one row per species not in NON_FAUNE, in species order. -/
def observationsFichier (dc : String) (lat lon alt : ℚ) (tags : List String) :
    List Observation :=
  ((noms tags).filter (fun s => !(NON_FAUNE.contains s))).map (fun s =>
    { commune := OcaUtils.commune tags
      date := dc
      espece := s
      quantite := resoudreQte s (qte tags)
      detailsTxt := resoudreDet s (details tags)
      latitude := lat
      longitude := lon
      altitude := alt })

/-- Per-file metadata as returned by the exiftool collaborator: an optional
capture date (already resolved through the priority order of the date
fields), optional classification tags and an optional complete GPS
triple (latitude, longitude, altitude). -/
structure FichierMedia where
  dateExif : Option String
  tagsExif : Option (List String)
  gps : Option (ℚ × ℚ × ℚ)

/-- Loop-carried state of exporter.py: the variables dc, tags, latitude,
longitude, altitude assigned before the directory walk. -/
structure EtatExport where
  dc : String
  tags : List String
  latitude : ℚ
  longitude : ℚ
  altitude : ℚ
deriving DecidableEq, Repr

/-- Initial values of the loop-carried state (exporter.py lines 130-132). -/
def etatInitial : EtatExport :=
  { dc := "0000:00:00 00:00:00", tags := [], latitude := 0, longitude := 0,
    altitude := 0 }

/-- State update for one file: each variable is overwritten only when the
file carries the corresponding metadata. -/
def traiterFichier (st : EtatExport) (f : FichierMedia) : EtatExport :=
  let st1 := match f.dateExif with | some d => { st with dc := d } | none => st
  let st2 := match f.tagsExif with | some t => { st1 with tags := t } | none => st1
  match f.gps with
  | some g => { st2 with latitude := g.1, longitude := g.2.1, altitude := g.2.2 }
  | none => st2

/-- Rows emitted for the current state. -/
def obsDe (st : EtatExport) : List Observation :=
  observationsFichier st.dc st.latitude st.longitude st.altitude st.tags

/-- File loop of exporter.py: update the state with the file's metadata,
then emit that file's rows. -/
def exporterBoucle (st : EtatExport) : List FichierMedia → List (List Observation)
  | [] => []
  | f :: fs => obsDe (traiterFichier st f) :: exporterBoucle (traiterFichier st f) fs

/-- Observations of a whole run of exporter.py, grouped per file. -/
def exporterObservations (fs : List FichierMedia) : List (List Observation) :=
  exporterBoucle etatInitial fs

/-- Last defined value of an optional attribute along a list, scanning in
order with later values overwriting earlier ones. -/
def choixDernier {α β : Type} (p : α → Option β) (l : List α) : Option β :=
  l.foldl (fun acc x => match p x with | some g => some g | none => acc) none

/-- GPS triple of the last file of the list that carries one. -/
def dernierGps (fs : List FichierMedia) : Option (ℚ × ℚ × ℚ) :=
  choixDernier FichierMedia.gps fs

/-- Capture date of the last file of the list that carries one. -/
def derniereDate (fs : List FichierMedia) : Option String :=
  choixDernier FichierMedia.dateExif fs

/-- Modelled transliteration table of the unidecode collaborator,
restricted to the characters of the tag vocabulary: ASCII unchanged,
accented Latin letters mapped to their base letters, other characters
dropped. -/
def translittere (c : Char) : String :=
  if c.toNat < 128 then String.mk [c]
  else if c == 'à' || c == 'â' || c == 'ä' then "a"
  else if c == 'ç' then "c"
  else if c == 'é' || c == 'è' || c == 'ê' || c == 'ë' then "e"
  else if c == 'î' || c == 'ï' then "i"
  else if c == 'ô' || c == 'ö' then "o"
  else if c == 'ù' || c == 'û' || c == 'ü' then "u"
  else if c == 'ÿ' then "y"
  else if c == 'æ' then "ae"
  else if c == 'œ' then "oe"
  else if c == 'À' || c == 'Â' || c == 'Ä' then "A"
  else if c == 'Ç' then "C"
  else if c == 'É' || c == 'È' || c == 'Ê' || c == 'Ë' then "E"
  else if c == 'Î' || c == 'Ï' then "I"
  else if c == 'Ô' || c == 'Ö' then "O"
  else if c == 'Ù' || c == 'Û' || c == 'Ü' then "U"
  else if c == 'Æ' then "AE"
  else if c == 'Œ' then "OE"
  else ""

/-- Modelled unidecode on strings: character-wise transliteration. -/
def unidecode (s : String) : String :=
  String.join (s.toList.map translittere)

/-- Model of the f-string `f"IMG_{seq:04}"` padding: minimum width 4,
zero-filled. -/
def pad4 (n : Nat) : String :=
  let s := toString n
  if s.length < 4 then String.mk (List.replicate (4 - s.length) '0') ++ s else s

/-- One eligible media file as seen by copier.py: its classification tags
and its filename extension. -/
structure FichierCopie where
  tags : List String
  suffixe : String

/-- Destination names computed by copier.py for one file: one name per
extracted species (no exclusion applied), assembled from the corrected
species name, resolved quantity, optional resolved detail and the original
extension, then transliterated. -/
def nomsDestination (racine : String) (tags : List String) (suffixe : String) :
    List String :=
  (noms tags).map (fun s =>
    let qt := resoudreQte s (qte tags)
    let de := resoudreDet s (details tags)
    if de.length = 0 then
      unidecode (racine ++ "_" ++ corrige s ++ "_" ++ toString qt ++ suffixe)
    else
      unidecode (racine ++ "_" ++ corrige s ++ "_" ++ toString qt ++ "_" ++ de ++ suffixe))

/-- File loop of copier.py: the sequence number is used for the whole
fan-out of one file and incremented exactly once per file. -/
def copierBoucle (seq : Nat) : List FichierCopie → List (Nat × List String)
  | [] => []
  | f :: fs =>
    (seq, nomsDestination ("IMG_" ++ pad4 seq) f.tags f.suffixe) :: copierBoucle (seq + 1) fs

/-- A whole run of copier.py over the eligible files, starting at
sequence number 1. -/
def copierFichiers (fs : List FichierCopie) : List (Nat × List String) :=
  copierBoucle 1 fs

/-- Model of Python string comparison on character lists: lexicographic on
code points, a proper prefix sorts first. -/
def pyLeAux : List Char → List Char → Bool
  | [], _ => true
  | _ :: _, [] => false
  | a :: as, b :: bs =>
    if a.val < b.val then true
    else if b.val < a.val then false
    else pyLeAux as bs

/-- Model of the Python comparison `s <= t` on strings. -/
def pyLe (s t : String) : Bool := pyLeAux s.toList t.toList

/-- Destination-name format as the spec states it: IMG_, the four-digit
zero-padded sequence number, the corrected species name, the quantity, the
detail only when non-empty, the original extension, the whole name
transliterated.  Stated for comparison with the code's
`nomsDestination`. -/
def formatNomOca (seq : Nat) (s : String) (qt : Nat) (de suffixe : String) : String :=
  unidecode ("IMG_" ++ pad4 seq ++ "_" ++ corrige s ++ "_" ++ toString qt
    ++ (if de = "" then "" else "_" ++ de) ++ suffixe)

/-- Subdirectory search of copier.py (lines 207-212):
`ssrep = ""; for dt in relevés: ssrep = dt; if date_prise <= dt: break`,
with the running value threaded through the loop. -/
def boucleSsrep (datePrise ssrep : String) : List String → String
  | [] => ssrep
  | dt :: reste => if pyLe datePrise dt then dt else boucleSsrep datePrise dt reste

/-- Survey-date bucket chosen by copier.py for one file. -/
def chercherSsrep (releves : List String) (datePrise : String) : String :=
  boucleSsrep datePrise "" releves

/-- Modelled from the spec: the routing rule claim C3 states, the bucket
whose date is the largest value not exceeding the file's date, with the
last bucket as fallback when the file's date exceeds every bucket.
Stated for comparison with the code's `chercherSsrep`. -/
def ssrepSelonSpec (releves : List String) (datePrise : String) : String :=
  match (releves.filter (fun dt => pyLe dt datePrise)).getLast? with
  | some dt => dt
  | none => releves.getLastD ""

/-! Helper lemmas about the resolution loops and the routing loop. -/

theorem longueur_nulle (s : String) : s.length = 0 ↔ s = "" := by
  cases s with
  | mk d =>
    cases d with
    | nil => simp
    | cons c cs => simp [String.length, String.ext_iff]

theorem qteBoucleNonConcorde (s : String) (l : List (String × String)) (a : Nat)
    (h : ∀ p ∈ l, p.1 ≠ s) :
    l.foldl (fun qt n => if n.1 = s then entierDe n.2 else max 1 qt) a
      = if l = [] then a else max 1 a := by
  induction l generalizing a with
  | nil => simp
  | cons x xs ih =>
    have hx : x.1 ≠ s := h x (List.mem_cons_self x xs)
    rw [List.foldl_cons, if_neg hx, ih (max 1 a) (fun p hp => h p (List.mem_cons_of_mem x hp))]
    cases xs with
    | nil => simp
    | cons y ys => simp [← Nat.max_assoc]

theorem detBoucleNonConcorde (s : String) (l : List (String × String)) (a : String)
    (h : ∀ p ∈ l, p.1 ≠ s) :
    l.foldl (fun de d => if d.1 = s then d.2 else de) a = a := by
  induction l generalizing a with
  | nil => rfl
  | cons x xs ih =>
    have hx : x.1 ≠ s := h x (List.mem_cons_self x xs)
    rw [List.foldl_cons, if_neg hx, ih a (fun p hp => h p (List.mem_cons_of_mem x hp))]

theorem boucleSsrep_caracterisation (datePrise acc : String) (l : List String) :
    boucleSsrep datePrise acc l
      = match l.find? (fun dt => pyLe datePrise dt) with
        | some dt => dt
        | none => l.getLastD acc := by
  induction l generalizing acc with
  | nil => rfl
  | cons dt reste ih =>
    cases hc : pyLe datePrise dt with
    | true => simp [boucleSsrep, List.find?_cons_of_pos, hc]
    | false =>
      have hb : boucleSsrep datePrise acc (dt :: reste) = boucleSsrep datePrise dt reste := by
        simp [boucleSsrep, hc]
      rw [hb, ih dt, List.find?_cons_of_neg _ (by simp [hc])]
      cases hr : List.find? (fun dt => pyLe datePrise dt) reste with
      | some d => rfl
      | none => rw [List.getLastD_cons]

/-- C1: for every species string and every sequence of single-entry
quantity mappings, the resolved quantity is computed by scanning the
whole sequence in order, matches overwriting the running value and
non-matches replacing it with max(1, running): with no matching key the
result is the default 1; when the last matching entry holds value v the
result is the parsed v itself if that entry is last and max(1, v) when
further non-matching entries follow, so the final value comes from the
last matching entry; the details resolution is the same last-match-wins
scan with default "". -/
theorem c1_resolution_derniere (s v w : String)
    (nb d0 l1 l2 m1 m2 : List (String × String)) :
    ((∀ p ∈ nb, p.1 ≠ s) → resoudreQte s nb = 1) ∧
    ((∀ p ∈ l2, p.1 ≠ s) →
      resoudreQte s (l1 ++ (s, v) :: l2)
        = if l2 = [] then entierDe v else max 1 (entierDe v)) ∧
    ((∀ p ∈ d0, p.1 ≠ s) → resoudreDet s d0 = "") ∧
    ((∀ p ∈ m2, p.1 ≠ s) → resoudreDet s (m1 ++ (s, w) :: m2) = w) := by
  refine ⟨fun h => ?_, fun h => ?_, fun h => ?_, fun h => ?_⟩
  · rw [resoudreQte, qteBoucleNonConcorde s nb 1 h]
    cases nb <;> simp
  · rw [resoudreQte, List.foldl_append, List.foldl_cons, if_pos rfl,
      qteBoucleNonConcorde s l2 _ h]
  · rw [resoudreDet, detBoucleNonConcorde s d0 "" h]
  · rw [resoudreDet, List.foldl_append, List.foldl_cons, if_pos rfl,
      detBoucleNonConcorde s m2 w h]

/-- C1 witness: the default, the last-match-then-trailing-non-match case
and the details analogue, at concrete inputs. -/
theorem c1_resolution_derniere_witness :
    resoudreQte "Chevreuil" [("Cerf", "9")] = 1 ∧
    resoudreQte "Chevreuil" [("Cerf", "2"), ("Chevreuil", "3"), ("Cerf", "5")] = 3 ∧
    resoudreDet "Chevreuil" [("Cerf", "9")] = "" ∧
    resoudreDet "Chevreuil" [("Chevreuil", "a"), ("Chevreuil", "b")] = "b" := by
  have h := c1_resolution_derniere "Chevreuil" "3" "b"
    [("Cerf", "9")] [("Cerf", "9")] [("Cerf", "2")] [("Cerf", "5")] [("Chevreuil", "a")] []
  exact ⟨h.1 (by decide), (h.2.1 (by decide)).trans (by decide),
    h.2.2.1 (by decide), (h.2.2.2 (by decide)).trans (by decide)⟩

/-- C2: the degradation operation returns the cell-center quantization
floor(v/g)*g + g/2 on each axis independently with cell size 1000, 2000,
5000, 10000 for grains M1, M2, M5, M10; degrading (12345, 67890) at M1
gives (12500, 67500); any other grain code leaves the coordinates
unchanged (the error log is an effect only). -/
theorem c2_degradation (x y : ℚ) (g : String) :
    degrader x y "M1" = (((⌊x / 1000⌋ : ℤ) : ℚ) * 1000 + 500,
      ((⌊y / 1000⌋ : ℤ) : ℚ) * 1000 + 500) ∧
    degrader x y "M2" = (((⌊x / 2000⌋ : ℤ) : ℚ) * 2000 + 1000,
      ((⌊y / 2000⌋ : ℤ) : ℚ) * 2000 + 1000) ∧
    degrader x y "M5" = (((⌊x / 5000⌋ : ℤ) : ℚ) * 5000 + 2500,
      ((⌊y / 5000⌋ : ℤ) : ℚ) * 5000 + 2500) ∧
    degrader x y "M10" = (((⌊x / 10000⌋ : ℤ) : ℚ) * 10000 + 5000,
      ((⌊y / 10000⌋ : ℤ) : ℚ) * 10000 + 5000) ∧
    (g ≠ "M1" → g ≠ "M2" → g ≠ "M5" → g ≠ "M10" → degrader x y g = (x, y)) ∧
    degrader 12345 67890 "M1" = (12500, 67500) := by
  refine ⟨rfl, by simp [degrader], by simp [degrader], by simp [degrader],
    fun h1 h2 h5 h10 => by simp [degrader, h1, h2, h5, h10], ?_⟩
  norm_num [degrader]

/-- C2 witness: an unknown grain code is a coordinate no-op. -/
theorem c2_degradation_witness : degrader 12345 67890 "XX" = (12345, 67890) :=
  (c2_degradation 12345 67890 "XX").2.2.2.2.1
    (by decide) (by decide) (by decide) (by decide)

/-- C3 counterexample: with the sorted buckets 20230101, 20230201 and file
date 20230115, the code routes to 20230201 while the claimed
largest-bucket-below rule picks 20230101. -/
theorem c3_contre_exemple :
    chercherSsrep ["20230101", "20230201"] "20230115" = "20230201" ∧
    ssrepSelonSpec ["20230101", "20230201"] "20230115" = "20230101" ∧
    chercherSsrep ["20230101", "20230201"] "20230115"
      ≠ ssrepSelonSpec ["20230101", "20230201"] "20230115" :=
  ⟨by decide, by decide, by decide⟩

/-- C3 amended: the copy operation routes each file to the first bucket in
iteration order whose date is at or after the file's capture-date name
prefix (for the sorted bucket list, the smallest such bucket, not the
largest bucket below); when the file's date exceeds every bucket date the
last-visited bucket is the fallback, and an empty bucket list gives the
empty subdirectory. -/
theorem c3_routage_premier_superieur (releves : List String) (datePrise : String) :
    chercherSsrep releves datePrise
      = match releves.find? (fun dt => pyLe datePrise dt) with
        | some dt => dt
        | none => releves.getLastD "" :=
  boucleSsrep_caracterisation datePrise "" releves

/-- C4 counterexample: a file tagged with species Canidés is exported with
species field "Canidés" although the name-correction lookup maps that name
to "CANIDE SP"; the exported species field is therefore not the corrected
name. -/
theorem c4_contre_exemple :
    (observationsFichier "d" 0 0 0 ["Nature|Canidés \x7bc\x7d"]).map Observation.espece
      = ["Canidés"] ∧
    corrige "Canidés" = "CANIDE SP" ∧
    ("Canidés" : String) ≠ "CANIDE SP" :=
  ⟨by decide, rfl, by decide⟩

/-- C4 amended: the export emits the raw extracted species name, applying
no correction (the species fields are exactly the extracted non-human
species entries verbatim); the name-correction lookup itself maps
"Canidés" to "CANIDE SP" and is the identity on every other name, and is
applied in the copy operation's destination names, not in the export. -/
theorem c4_espece_brute (dc : String) (lat lon alt : ℚ) (tags : List String)
    (s : String) :
    (observationsFichier dc lat lon alt tags).map Observation.espece
      = (noms tags).filter (fun n => !(NON_FAUNE.contains n)) ∧
    corrige "Canidés" = "CANIDE SP" ∧
    (s ≠ "Canidés" → corrige s = s) := by
  refine ⟨?_, rfl, fun h => if_neg h⟩
  unfold observationsFichier
  rw [List.map_map]
  exact (List.map_congr_left fun n _ => rfl).trans (List.map_id _)

/-- C4 witness: an unmapped species name is exported unchanged and is a
fixed point of the correction. -/
theorem c4_espece_brute_witness :
    (observationsFichier "d" 0 0 0 ["Nature|Chevreuil \x7bc\x7d"]).map Observation.espece
      = ["Chevreuil"] ∧
    corrige "Chevreuil" = "Chevreuil" := by
  have h := c4_espece_brute "d" 0 0 0 ["Nature|Chevreuil \x7bc\x7d"] "Chevreuil"
  exact ⟨h.1.trans (by decide), h.2.2 (by decide)⟩

/-- C5 counterexample: with two tags matching the commune path, the
commune used for the emitted observations is captured from the first
matching tag, not the last as claimed. -/
theorem c5_contre_exemple :
    commune [racineCommune ++ "Grenoble", racineCommune ++ "Vizille"] = "Grenoble" ∧
    communeSelonSpec [racineCommune ++ "Grenoble", racineCommune ++ "Vizille"]
      = "Vizille" ∧
    commune [racineCommune ++ "Grenoble", racineCommune ++ "Vizille"]
      ≠ communeSelonSpec [racineCommune ++ "Grenoble", racineCommune ++ "Vizille"] :=
  ⟨by decide, by decide, by decide⟩

/-- C5 amended: the commune of the emitted observations is the commune
captured from the FIRST tag matching the fixed administrative-place
pattern (the extraction loop breaks at the first match); with no matching
tag the commune is "Inconnu"; every observation emitted for a file carries
that commune. -/
theorem c5_commune_premiere (tags : List String) (dc : String) (lat lon alt : ℚ) :
    commune tags = (tags.findSome? capteCommune).getD "Inconnu" ∧
    (∀ o ∈ observationsFichier dc lat lon alt tags,
      o.commune = (tags.findSome? capteCommune).getD "Inconnu") := by
  have h1 : ∀ ts : List String,
      commune ts = (ts.findSome? capteCommune).getD "Inconnu" := by
    intro ts
    induction ts with
    | nil => rfl
    | cons t ts ih =>
      cases hc : capteCommune t with
      | none => simp [commune, hc, List.findSome?, ih]
      | some c => simp [commune, hc, List.findSome?]
  refine ⟨h1 tags, fun o ho => ?_⟩
  obtain ⟨s, hs, rfl⟩ := List.mem_map.1 ho
  simpa using h1 tags

/-- C5 witness: observations of a file with no commune tag carry
"Inconnu". -/
theorem c5_commune_premiere_witness :
    commune ["Nature|Chevreuil \x7bc\x7d"] = "Inconnu" ∧
    ({ commune := "Inconnu", date := "d", espece := "Chevreuil", quantite := 1,
       detailsTxt := "", latitude := 0, longitude := 0, altitude := 0 } :
        Observation).commune = "Inconnu" := by
  have h := c5_commune_premiere ["Nature|Chevreuil \x7bc\x7d"] "d" 0 0 0
  exact ⟨h.1.trans (by decide), (h.2 _ (by decide)).trans (by decide)⟩

/-- C6: for a file whose tag list yields exactly two species, one in the
human-activity exclusion set and one wildlife species, the export emits
exactly one observation while the copy operation computes two destination
names, applying no exclusion. -/
theorem c6_exclusion_export (dc : String) (lat lon alt : ℚ) (tags : List String)
    (a b : String) (h : noms tags = [a, b])
    (hab : (a ∈ NON_FAUNE ∧ b ∉ NON_FAUNE) ∨ (a ∉ NON_FAUNE ∧ b ∈ NON_FAUNE))
    (racine suffixe : String) :
    (observationsFichier dc lat lon alt tags).length = 1 ∧
    (nomsDestination racine tags suffixe).length = 2 := by
  constructor
  · unfold observationsFichier
    rw [List.length_map, h]
    rcases hab with ⟨ha, hb⟩ | ⟨ha, hb⟩
    · simp [List.filter_cons, ha, hb]
    · simp [List.filter_cons, ha, hb]
  · unfold nomsDestination
    rw [List.length_map, h]
    rfl

/-- C6 witness: a file tagged Randonneur (human activity) and Chevreuil
(wildlife). -/
theorem c6_exclusion_export_witness :
    (observationsFichier "d" 0 0 0
      ["Nature|Randonneur \x7br\x7d", "Nature|Chevreuil \x7bc\x7d"]).length = 1 ∧
    (nomsDestination "IMG_0001"
      ["Nature|Randonneur \x7br\x7d", "Nature|Chevreuil \x7bc\x7d"] ".jpg").length = 2 :=
  c6_exclusion_export "d" 0 0 0
    ["Nature|Randonneur \x7br\x7d", "Nature|Chevreuil \x7bc\x7d"]
    "Randonneur" "Chevreuil" (by decide) (by decide) "IMG_0001" ".jpg"

/-- C7: the species extraction returns exactly one entry per
Nature-prefixed tag, in tag order with duplicates preserved: the entry is
the species-pattern match on the text after the last separator with its
last two characters stripped when a match exists and the placeholder
"Inconnu" otherwise; non-Nature tags contribute nothing and the result
length equals the number of Nature tags (the operation is total). -/
theorem c7_extraction_especes (tags : List String) :
    noms tags
      = (tags.filter (fun t => commencePar "Nature" t)).map (fun t =>
          match espRecherche (dernierSegment t).toList with
          | some m => String.mk (m.take (m.length - 2))
          | none => "Inconnu") ∧
    (noms tags).length = (tags.filter (fun t => commencePar "Nature" t)).length := by
  have h1 : ∀ ts : List String,
      noms ts
        = (ts.filter (fun t => commencePar "Nature" t)).map (fun t =>
            match espRecherche (dernierSegment t).toList with
            | some m => String.mk (m.take (m.length - 2))
            | none => "Inconnu") := by
    intro ts
    induction ts with
    | nil => rfl
    | cons t ts ih =>
      cases hc : commencePar "Nature" t with
      | true => simp [noms, hc, List.filter_cons, ih, especeDe]
      | false => simp [noms, hc, List.filter_cons, ih]
  exact ⟨h1 tags, by rw [h1 tags, List.length_map]⟩

/-! Helper lemmas for the copier and exporter file loops. -/

theorem copierBoucle_position (seq i : Nat) (fs : List FichierCopie) :
    (copierBoucle seq fs).get? i
      = (fs.get? i).map (fun f =>
          (seq + i, nomsDestination ("IMG_" ++ pad4 (seq + i)) f.tags f.suffixe)) := by
  induction fs generalizing seq i with
  | nil => simp [copierBoucle]
  | cons f fs ih =>
    cases i with
    | zero => simp [copierBoucle]
    | succ n =>
      calc (copierBoucle seq (f :: fs)).get? (n + 1)
          = (copierBoucle (seq + 1) fs).get? n := by simp [copierBoucle]
        _ = (fs.get? n).map (fun f =>
              (seq + 1 + n, nomsDestination ("IMG_" ++ pad4 (seq + 1 + n)) f.tags f.suffixe)) :=
            ih (seq + 1) n
        _ = _ := by rw [show seq + 1 + n = seq + (n + 1) by omega]; rfl

theorem nomsDestination_selon_format (seq : Nat) (tags : List String) (suffixe : String) :
    nomsDestination ("IMG_" ++ pad4 seq) tags suffixe
      = (noms tags).map (fun s =>
          formatNomOca seq s (resoudreQte s (qte tags))
            (resoudreDet s (details tags)) suffixe) := by
  unfold nomsDestination formatNomOca
  refine congrArg (fun f => List.map f (noms tags)) (funext fun s => ?_)
  by_cases hde : resoudreDet s (details tags) = ""
  · simp only [hde]
    rw [if_pos (by simp [longueur_nulle])]
    simp [String.append_empty]
  · rw [if_neg (fun hl => hde ((longueur_nulle _).1 hl)), if_neg hde]
    simp [String.append_assoc]

theorem resoudreQte_minoree (s : String) (nb : List (String × String))
    (h : ∀ p ∈ nb, 1 ≤ entierDe p.2) : 1 ≤ resoudreQte s nb := by
  suffices H : ∀ (l : List (String × String)) (a : Nat), 1 ≤ a →
      (∀ p ∈ l, 1 ≤ entierDe p.2) →
      1 ≤ l.foldl (fun qt n => if n.1 = s then entierDe n.2 else max 1 qt) a from
    H nb 1 le_rfl h
  intro l
  induction l with
  | nil => intro a ha _; simpa using ha
  | cons x xs ih =>
    intro a ha hl
    rw [List.foldl_cons]
    by_cases hx : x.1 = s
    · exact ih _ (by rw [if_pos hx]; exact hl x (List.mem_cons_self x xs))
        (fun p hp => hl p (List.mem_cons_of_mem x hp))
    · exact ih _ (by rw [if_neg hx]; exact Nat.le_max_left 1 a)
        (fun p hp => hl p (List.mem_cons_of_mem x hp))

theorem exporterBoucle_position (st : EtatExport) (fs : List FichierMedia) (i : Nat) :
    (exporterBoucle st fs).get? i
      = (fs.get? i).map (fun _ => obsDe ((fs.take (i + 1)).foldl traiterFichier st)) := by
  induction fs generalizing st i with
  | nil => simp [exporterBoucle]
  | cons f fs ih =>
    cases i with
    | zero => simp [exporterBoucle]
    | succ n =>
      calc (exporterBoucle st (f :: fs)).get? (n + 1)
          = (exporterBoucle (traiterFichier st f) fs).get? n := by simp [exporterBoucle]
        _ = (fs.get? n).map
              (fun _ => obsDe ((fs.take (n + 1)).foldl traiterFichier (traiterFichier st f))) :=
            ih (traiterFichier st f) n
        _ = _ := by rw [List.take_succ_cons, List.foldl_cons]; rfl

theorem choixDernier_foldl {α β : Type} (p : α → Option β) (l : List α) (a : Option β) :
    l.foldl (fun acc x => match p x with | some g => some g | none => acc) a
      = (choixDernier p l).or a := by
  induction l generalizing a with
  | nil => rfl
  | cons x xs ih =>
    have hcons : choixDernier p (x :: xs)
        = xs.foldl (fun acc y => match p y with | some g => some g | none => acc)
            (match p x with | some g => some g | none => none) := rfl
    rw [List.foldl_cons, ih, hcons, ih]
    cases hxs : choixDernier p xs <;> cases hx : p x <;> simp [hx, Option.or]

theorem choixDernier_cons {α β : Type} (p : α → Option β) (x : α) (l : List α) :
    choixDernier p (x :: l) = (choixDernier p l).or (p x) := by
  have hcons : choixDernier p (x :: l)
      = l.foldl (fun acc y => match p y with | some g => some g | none => acc)
          (match p x with | some g => some g | none => none) := rfl
  rw [hcons, choixDernier_foldl]
  cases hxs : choixDernier p l <;> cases hx : p x <;> simp [hx, Option.or]

theorem traiter_dc (st : EtatExport) (f : FichierMedia) :
    (traiterFichier st f).dc = f.dateExif.getD st.dc := by
  rcases f with ⟨fd, ft, fg⟩
  cases fd <;> cases ft <;> cases fg <;> rfl

theorem traiter_latitude (st : EtatExport) (f : FichierMedia) :
    (traiterFichier st f).latitude
      = (f.gps.map (fun g => g.1)).getD st.latitude := by
  rcases f with ⟨fd, ft, fg⟩
  cases fd <;> cases ft <;> cases fg <;> rfl

theorem traiter_longitude (st : EtatExport) (f : FichierMedia) :
    (traiterFichier st f).longitude
      = (f.gps.map (fun g => g.2.1)).getD st.longitude := by
  rcases f with ⟨fd, ft, fg⟩
  cases fd <;> cases ft <;> cases fg <;> rfl

theorem traiter_altitude (st : EtatExport) (f : FichierMedia) :
    (traiterFichier st f).altitude
      = (f.gps.map (fun g => g.2.2)).getD st.altitude := by
  rcases f with ⟨fd, ft, fg⟩
  cases fd <;> cases ft <;> cases fg <;> rfl

theorem etatFoldl_dc (fs : List FichierMedia) (st : EtatExport) :
    (fs.foldl traiterFichier st).dc = (derniereDate fs).getD st.dc := by
  induction fs generalizing st with
  | nil => rfl
  | cons f fs ih =>
    rw [List.foldl_cons, ih]
    have hD : derniereDate (f :: fs) = (derniereDate fs).or f.dateExif := by
      unfold derniereDate
      exact choixDernier_cons FichierMedia.dateExif f fs
    rw [hD]
    cases hfs : derniereDate fs <;> simp [traiter_dc, Option.or]

theorem etatFoldl_latitude (fs : List FichierMedia) (st : EtatExport) :
    (fs.foldl traiterFichier st).latitude
      = ((dernierGps fs).map (fun g => g.1)).getD st.latitude := by
  induction fs generalizing st with
  | nil => rfl
  | cons f fs ih =>
    rw [List.foldl_cons, ih]
    have hD : dernierGps (f :: fs) = (dernierGps fs).or f.gps := by
      unfold dernierGps
      exact choixDernier_cons FichierMedia.gps f fs
    rw [hD]
    cases hfs : dernierGps fs <;> simp [traiter_latitude, Option.or]

theorem etatFoldl_longitude (fs : List FichierMedia) (st : EtatExport) :
    (fs.foldl traiterFichier st).longitude
      = ((dernierGps fs).map (fun g => g.2.1)).getD st.longitude := by
  induction fs generalizing st with
  | nil => rfl
  | cons f fs ih =>
    rw [List.foldl_cons, ih]
    have hD : dernierGps (f :: fs) = (dernierGps fs).or f.gps := by
      unfold dernierGps
      exact choixDernier_cons FichierMedia.gps f fs
    rw [hD]
    cases hfs : dernierGps fs <;> simp [traiter_longitude, Option.or]

theorem etatFoldl_altitude (fs : List FichierMedia) (st : EtatExport) :
    (fs.foldl traiterFichier st).altitude
      = ((dernierGps fs).map (fun g => g.2.2)).getD st.altitude := by
  induction fs generalizing st with
  | nil => rfl
  | cons f fs ih =>
    rw [List.foldl_cons, ih]
    have hD : dernierGps (f :: fs) = (dernierGps fs).or f.gps := by
      unfold dernierGps
      exact choixDernier_cons FichierMedia.gps f fs
    rw [hD]
    cases hfs : dernierGps fs <;> simp [traiter_altitude, Option.or]

/-- C8: the i-th processed file uses the per-run sequence number 1 + i
(incremented exactly once per source file), and every destination name
fanned out from it is the transliterated
IMG_(four-digit sequence)_(corrected species)_(quantity)[_(detail)](extension)
for the corresponding extracted species, all sharing that one sequence
number. -/
theorem c8_noms_destination (fs : List FichierCopie) (i : Nat) (f : FichierCopie)
    (hf : fs.get? i = some f) :
    (copierFichiers fs).get? i
      = some (1 + i, (noms f.tags).map (fun s =>
          formatNomOca (1 + i) s (resoudreQte s (qte f.tags))
            (resoudreDet s (details f.tags)) f.suffixe)) := by
  unfold copierFichiers
  rw [copierBoucle_position, hf, Option.map_some', nomsDestination_selon_format]

/-- C8 witness: one file, one species, sequence number 1. -/
theorem c8_noms_destination_witness :
    (copierFichiers [{ tags := ["Nature|Chevreuil \x7bc\x7d"], suffixe := ".jpg" }]).get? 0
      = some (1, ["IMG_0001_Chevreuil_1.jpg"]) := by
  have h := c8_noms_destination [{ tags := ["Nature|Chevreuil \x7bc\x7d"], suffixe := ".jpg" }]
    0 { tags := ["Nature|Chevreuil \x7bc\x7d"], suffixe := ".jpg" } rfl
  exact h.trans (by decide)

/-- C9 counterexample: a quantity tag with numeric part 0 matching the
species as the last quantity entry makes the export emit quantity 0,
which is not a positive integer. -/
theorem c9_contre_exemple :
    (observationsFichier "d" 0 0 0
      ["Nature|Chevreuil \x7bc\x7d", "Quantité|Chevreuil_0"]).map Observation.quantite
      = [0] ∧ ¬ (1 ≤ (0 : Nat)) :=
  ⟨by decide, by decide⟩

/-- C9 amended: the quantity of every emitted observation is at least 1
whenever every extracted quantity entry parses to a positive value (in
particular whenever no quantity tag carries the number 0); a zero-valued
entry that is the last match escapes the max(1, running) guard and is
emitted as 0. -/
theorem c9_quantite_minoree (dc : String) (lat lon alt : ℚ) (tags : List String)
    (h : ∀ p ∈ qte tags, 1 ≤ entierDe p.2) :
    ∀ o ∈ observationsFichier dc lat lon alt tags, 1 ≤ o.quantite := by
  intro o ho
  simp only [observationsFichier] at ho
  obtain ⟨s, hs, rfl⟩ := List.mem_map.1 ho
  exact resoudreQte_minoree s (qte tags) h

/-- C9 witness: a positive quantity tag yields an observation with
quantity at least 1. -/
theorem c9_quantite_minoree_witness :
    1 ≤ ({ commune := "Inconnu", date := "d", espece := "Chevreuil", quantite := 3,
           detailsTxt := "", latitude := 0, longitude := 0, altitude := 0 } :
          Observation).quantite :=
  c9_quantite_minoree "d" 0 0 0
    ["Nature|Chevreuil \x7bc\x7d", "Quantité|Chevreuil_3"] (by decide) _ (by decide)

/-- C10: the capture date and GPS state of the exporter is initialized
once before the file loop and only overwritten by files that carry the
corresponding metadata: a file with no GPS triple (or no date) emits its
observations with the coordinates (or date) of the most recent earlier
file carrying them, or with the initial defaults 0 and
"0000:00:00 00:00:00" when no earlier file did. -/
theorem c10_etat_persistant (fs : List FichierMedia) (i : Nat) (f : FichierMedia)
    (hf : fs.get? i = some f) :
    ∃ obs, (exporterObservations fs).get? i = some obs ∧
      (f.gps = none → ∀ o ∈ obs,
        o.latitude = ((dernierGps (fs.take i)).map (fun g => g.1)).getD 0 ∧
        o.longitude = ((dernierGps (fs.take i)).map (fun g => g.2.1)).getD 0 ∧
        o.altitude = ((dernierGps (fs.take i)).map (fun g => g.2.2)).getD 0) ∧
      (f.dateExif = none → ∀ o ∈ obs,
        o.date = (derniereDate (fs.take i)).getD "0000:00:00 00:00:00") := by
  have hobs : (exporterObservations fs).get? i
      = some (obsDe ((fs.take (i + 1)).foldl traiterFichier etatInitial)) := by
    rw [exporterObservations, exporterBoucle_position, hf, Option.map_some']
  have htake : fs.take (i + 1) = fs.take i ++ [f] := by
    rw [List.take_succ, ← List.get?_eq_getElem?, hf]
    rfl
  have hfold : (fs.take (i + 1)).foldl traiterFichier etatInitial
      = traiterFichier ((fs.take i).foldl traiterFichier etatInitial) f := by
    rw [htake, List.foldl_append, List.foldl_cons, List.foldl_nil]
  refine ⟨_, hobs, fun hg o ho => ?_, fun hd o ho => ?_⟩
  · simp only [obsDe, observationsFichier] at ho
    obtain ⟨s, hs, rfl⟩ := List.mem_map.1 ho
    refine ⟨?_, ?_, ?_⟩
    · show ((fs.take (i + 1)).foldl traiterFichier etatInitial).latitude = _
      rw [hfold, traiter_latitude, hg, Option.map_none', Option.getD_none,
        etatFoldl_latitude]
      rfl
    · show ((fs.take (i + 1)).foldl traiterFichier etatInitial).longitude = _
      rw [hfold, traiter_longitude, hg, Option.map_none', Option.getD_none,
        etatFoldl_longitude]
      rfl
    · show ((fs.take (i + 1)).foldl traiterFichier etatInitial).altitude = _
      rw [hfold, traiter_altitude, hg, Option.map_none', Option.getD_none,
        etatFoldl_altitude]
      rfl
  · simp only [obsDe, observationsFichier] at ho
    obtain ⟨s, hs, rfl⟩ := List.mem_map.1 ho
    show ((fs.take (i + 1)).foldl traiterFichier etatInitial).dc = _
    rw [hfold, traiter_dc, hd, Option.getD_none, etatFoldl_dc]
    rfl

/-- C10 witness: a second file with no date and no GPS reuses the first
file's date and coordinates. -/
theorem c10_etat_persistant_witness :
    ∃ obs,
      (exporterObservations
        [{ dateExif := some "2024:06:01 10:00:00",
           tagsExif := some ["Nature|Chevreuil \x7bc\x7d"],
           gps := some (1, 2, 3) },
         { dateExif := none, tagsExif := none, gps := none }]).get? 1 = some obs ∧
      (∀ o ∈ obs, o.latitude = 1 ∧ o.longitude = 2 ∧ o.altitude = 3) ∧
      (∀ o ∈ obs, o.date = "2024:06:01 10:00:00") := by
  obtain ⟨obs, h1, h2, h3⟩ := c10_etat_persistant
    [{ dateExif := some "2024:06:01 10:00:00",
       tagsExif := some ["Nature|Chevreuil \x7bc\x7d"],
       gps := some (1, 2, 3) },
     { dateExif := none, tagsExif := none, gps := none }] 1
    { dateExif := none, tagsExif := none, gps := none } rfl
  refine ⟨obs, h1, fun o ho => ?_, fun o ho => ?_⟩
  · obtain ⟨ha, hb, hc⟩ := h2 rfl o ho
    exact ⟨ha.trans (by decide), hb.trans (by decide), hc.trans (by decide)⟩
  · exact (h3 rfl o ho).trans (by decide)

end OcaUtils
